import Mathlib

/-!
# ClassroomBank — verification of the ledger-mutation core

Shallow embedding of the ClassroomBank server routes (`registerRoutes`) and the
storage layer (`DatabaseStorage`).  Monetary values are stored as strings, as in
the source; JavaScript `parseFloat` is embedded as a partial decimal parser
returning `Option ℚ` (with `none` playing the role of `NaN`), and
`Number.prototype.toFixed(2)` as rounding to a cent count followed by decimal
rendering.  Database rows become Lean structures, the storage object becomes a
`Store` record and each route handler a function `... → Store × ApiResult`.
Authentication middleware and role checks are plumbing around the embedded
fragment and are elided (all embedded handlers are reached with the role check
passed); the zod schema parses are modelled as yielding the fields the handlers
destructure.
-/

namespace ClassroomBank

/-! ## JavaScript number and string primitives -/

/-- Decimal digit value of a character, `none` for non-digits. -/
def digit? (c : Char) : Option Nat :=
  if 48 ≤ c.toNat ∧ c.toNat ≤ 57 then some (c.toNat - 48) else none

/-- The character for a decimal digit. -/
def digitChar (d : Nat) : Char := Char.ofNat (48 + d)

/-- Split a character list into its maximal leading run of decimal digits
(as digit values) and the remainder. -/
def spanDigits : List Char → List Nat × List Char
  | [] => ([], [])
  | c :: cs =>
    match digit? c with
    | some d => (d :: (spanDigits cs).1, (spanDigits cs).2)
    | none => ([], c :: cs)

/-- Value of a big-endian list of digit values. -/
def digitsVal (ds : List Nat) : Nat := ds.foldl (fun a d => 10 * a + d) 0

/-- Big-endian digit values of a natural number (at least one digit). -/
def natToDigitNats (n : Nat) : List Nat :=
  if n < 10 then [n] else natToDigitNats (n / 10) ++ [n % 10]
decreasing_by exact Nat.div_lt_self (by omega) (by omega)

/-- Decimal character rendering of a natural number. -/
def natToDigits (n : Nat) : List Char := (natToDigitNats n).map digitChar

/-- The characters of `m` cents rendered with two fractional digits,
e.g. `2500 ↦ "25.00"`. -/
def centsChars (m : Nat) : List Char :=
  natToDigits (m / 100) ++ '.' :: [digitChar (m % 100 / 10), digitChar (m % 10)]

/-- A signed number of cents rendered the way `toFixed(2)` renders its value,
e.g. `-2500 ↦ "-25.00"`. -/
def centsRender (n : ℤ) : String :=
  ⟨(if n < 0 then ['-'] else []) ++ centsChars n.natAbs⟩

/-- Unsigned part of `parseFloat`: a digit run, optionally followed by `.` and a
second digit run; trailing garbage is ignored, as `parseFloat` ignores it. -/
def parseUnsigned (cs : List Char) : Option ℚ :=
  let intPart := spanDigits cs
  if intPart.2.head? = some '.' then
    let fracPart := spanDigits intPart.2.tail
    if intPart.1.isEmpty && fracPart.1.isEmpty then none
    else some ((digitsVal intPart.1 : ℚ) + (digitsVal fracPart.1 : ℚ) / (10 : ℚ) ^ fracPart.1.length)
  else if intPart.1.isEmpty then none else some (digitsVal intPart.1 : ℚ)

/-- An optional leading sign before the unsigned part. -/
def parseSigned (cs : List Char) : Option ℚ :=
  if cs.head? = some '-' then (parseUnsigned cs.tail).map (fun q => -q)
  else if cs.head? = some '+' then parseUnsigned cs.tail
  else parseUnsigned cs

/-- Embedding of JavaScript `parseFloat` on the decimal strings this
application traffics in; `none` is `NaN`. -/
def parseFloatQ (s : String) : Option ℚ := parseSigned s.data

/-- Embedding of `x.toFixed(2)`: `NaN` renders as `"NaN"`; otherwise round to a
whole number of cents (ties upward) and render with two fractional digits. -/
def toFixed2 : Option ℚ → String
  | none => "NaN"
  | some q => centsRender ⌊q * 100 + 1 / 2⌋

/-- Whether a string ends in `.` followed by exactly two digits. -/
def hasTwoFracDigits (s : String) : Bool :=
  match s.data.reverse with
  | b :: a :: c :: _ => c = '.' && (digit? a).isSome && (digit? b).isSome
  | _ => false

/-- JavaScript `+` on possibly-`NaN` numbers. -/
def jsAdd : Option ℚ → Option ℚ → Option ℚ
  | some a, some b => some (a + b)
  | _, _ => none

/-- JavaScript `-` on possibly-`NaN` numbers. -/
def jsSub : Option ℚ → Option ℚ → Option ℚ
  | some a, some b => some (a - b)
  | _, _ => none

/-- JavaScript `Math.max(0, x)`; `NaN` propagates. -/
def jsMax0 : Option ℚ → Option ℚ
  | some a => some (max 0 a)
  | none => none

/-- JavaScript `x > 0`; false on `NaN`. -/
def jsGtZero : Option ℚ → Bool
  | some a => decide (0 < a)
  | none => false

/-- JavaScript `x < 0`; false on `NaN`. -/
def jsLtZero : Option ℚ → Bool
  | some a => decide (a < 0)
  | none => false

/-- JavaScript `x > y`; false if either side is `NaN`. -/
def jsGt : Option ℚ → Option ℚ → Bool
  | some a, some b => decide (b < a)
  | _, _ => false

/-- The rational a stored amount string denotes (0 if unparsable). -/
def amountQ (s : String) : ℚ := (parseFloatQ s).getD 0

/-! ## Data model (`shared/schema.ts`)

An `Account` row joined with its user: `userId` is the owning user's id (used
by `updateAccountBalance`) and `id` the account's own id (used as transaction
`accountId`).  `getAllStudents` returns exactly these joined rows. -/

structure Account where
  id : Nat
  userId : String
  balance : String
deriving DecidableEq

/-- A `transactions` row (insert shape: generated id and timestamp elided). -/
structure Transaction where
  accountId : Nat
  type : String
  amount : String
  description : String
  createdBy : String
deriving DecidableEq

/-- A `withdrawal_requests` row (timestamps elided). -/
structure WithdrawalRequest where
  id : Nat
  accountId : Nat
  amount : String
  reason : String
  status : String
  reviewedBy : String
deriving DecidableEq

/-- The relational store the `DatabaseStorage` methods act on. -/
structure Store where
  accounts : List Account
  transactions : List Transaction
  requests : List WithdrawalRequest
deriving DecidableEq

/-- Outcome a handler responds with: success payload, or an error status plus
structured message. -/
inductive ApiResult where
  | ok
  | err (status : Nat) (message : String)
deriving DecidableEq

/-! ## Storage operations (`DatabaseStorage`) -/

/-- `storage.getAccount(userId)`. -/
def getAccount (userId : String) (s : Store) : Option Account :=
  s.accounts.find? (fun a => a.userId = userId)

/-- `storage.updateAccountBalance(userId, newBalance)`. -/
def updateAccountBalance (userId newBalance : String) (s : Store) : Store :=
  { s with accounts := s.accounts.map (fun a =>
      if a.userId = userId then { a with balance := newBalance } else a) }

/-- `storage.createTransaction(t)` (rows accumulate in insertion order). -/
def createTransaction (t : Transaction) (s : Store) : Store :=
  { s with transactions := s.transactions ++ [t] }

/-- `storage.getAllStudents()`: the student/account joined rows. -/
def getAllStudents (s : Store) : List Account := s.accounts

/-- `storage.getPendingWithdrawalRequests()`: rows with `status = "pending"`. -/
def getPendingWithdrawalRequests (s : Store) : List WithdrawalRequest :=
  s.requests.filter (fun r => r.status = "pending")

/-- `storage.updateWithdrawalRequest(id, {status, reviewedBy})`. -/
def updateWithdrawalRequest (id : Nat) (status reviewedBy : String) (s : Store) : Store :=
  { s with requests := s.requests.map (fun r =>
      if r.id = id then { r with status := status, reviewedBy := reviewedBy } else r) }

/-- `storage.createWithdrawalRequest` with a fresh row id supplied by the db. -/
def createWithdrawalRequest (newId : Nat) (accountId : Nat) (amount reason : String)
    (s : Store) : Store :=
  { s with requests := s.requests ++
      [{ id := newId, accountId := accountId, amount := amount, reason := reason,
         status := "pending", reviewedBy := "" }] }

/-! ## Route handlers (`registerRoutes`) -/

/-- `POST /api/withdrawal-requests` (student role check elided): reject with
"Insufficient balance" when the requested amount exceeds the current balance,
otherwise insert a pending request. -/
def postWithdrawalRequests (userId amount reason : String) (newId : Nat)
    (s : Store) : Store × ApiResult :=
  match getAccount userId s with
  | none => (s, .err 404 "Account not found")
  | some account =>
    if jsGt (parseFloatQ amount) (parseFloatQ account.balance) then
      (s, .err 400 "Insufficient balance")
    else
      (createWithdrawalRequest newId account.id amount reason s, .ok)

/-- `PATCH /api/withdrawal-requests/:id` (teacher role check elided): update
the request's status, then — if approving — look the request up among the
*pending* requests and, when found, deduct its amount and record a withdrawal
transaction. -/
def patchWithdrawalRequest (userId : String) (requestId : Nat) (status : String)
    (s : Store) : Store × ApiResult :=
  let s1 := updateWithdrawalRequest requestId status userId s
  if status = "approved" then
    match (getPendingWithdrawalRequests s1).find? (fun r => r.id = requestId) with
    | some originalRequest =>
      match s1.accounts.find? (fun a => a.id = originalRequest.accountId) with
      | some account =>
        let currentBalance := parseFloatQ account.balance
        let withdrawalAmount := parseFloatQ originalRequest.amount
        let newBalance := toFixed2 (jsSub currentBalance withdrawalAmount)
        let s2 := updateAccountBalance account.userId newBalance s1
        let s3 := createTransaction
          { accountId := account.id, type := "withdrawal",
            amount := "-" ++ originalRequest.amount,
            description := "Withdrawal: " ++ originalRequest.reason,
            createdBy := userId } s2
        (s3, .ok)
      | none => (s1, .ok)
    | none => (s1, .ok)
  else (s1, .ok)

/-- One iteration of the `distribute-paycheck` loop body. -/
def paycheckStep (userId amount : String) (st : Store) (student : Account) : Store :=
  let currentBalance := parseFloatQ student.balance
  let paycheckAmount := parseFloatQ amount
  let newBalance := toFixed2 (jsAdd currentBalance paycheckAmount)
  let st1 := updateAccountBalance student.userId newBalance st
  createTransaction
    { accountId := student.id, type := "paycheck", amount := amount,
      description := "Weekly Paycheck", createdBy := userId } st1

/-- `POST /api/distribute-paycheck` (teacher role check elided): add the amount
to every student account and record one paycheck transaction each; the
response reports `students.length` as the number of students reached. -/
def distributePaycheck (userId amount : String) (s : Store) : Store × Nat :=
  let students := getAllStudents s
  (students.foldl (paycheckStep userId amount) s, students.length)

/-- `POST /api/adjust-balance` (teacher role check and student-user lookup
elided): compute the adjusted balance, reject if it would be negative,
otherwise persist it and record a bonus/withdrawal transaction. -/
def adjustBalance (userId studentId amount description ty : String)
    (s : Store) : Store × ApiResult :=
  match getAccount studentId s with
  | none => (s, .err 404 "Student account not found")
  | some account =>
    let currentBalance := parseFloatQ account.balance
    let adjustmentAmount := parseFloatQ amount
    let newBalance :=
      if ty = "add" then toFixed2 (jsAdd currentBalance adjustmentAmount)
      else toFixed2 (jsSub currentBalance adjustmentAmount)
    if jsLtZero (parseFloatQ newBalance) then
      (s, .err 400 "Balance cannot be negative")
    else
      let s1 := updateAccountBalance studentId newBalance s
      let s2 := createTransaction
        { accountId := account.id,
          type := if ty = "add" then "bonus" else "withdrawal",
          amount := if ty = "add" then amount else "-" ++ amount,
          description := description, createdBy := userId } s1
      (s2, .ok)

/-- One iteration of the `collect-rent` loop body, threading the store and the
`studentsAffected` counter. -/
def rentStep (userId amount : String) (acc : Store × Nat) (student : Account) : Store × Nat :=
  let currentBalance := parseFloatQ student.balance
  let rentAmount := parseFloatQ amount
  let newBalance := toFixed2 (jsMax0 (jsSub currentBalance rentAmount))
  if jsGtZero currentBalance then
    let st1 := updateAccountBalance student.userId newBalance acc.1
    let actualDeduction := jsSub currentBalance (parseFloatQ newBalance)
    if jsGtZero actualDeduction then
      (createTransaction
        { accountId := student.id, type := "rent",
          amount := "-" ++ toFixed2 actualDeduction,
          description := "Monthly Rent", createdBy := userId } st1, acc.2 + 1)
    else (st1, acc.2)
  else acc

/-- `POST /api/collect-rent` (teacher role check elided): deduct the rent from
every student, clamping at zero, skipping accounts already at zero, recording
the actually deducted amount, and counting the affected students. -/
def collectRent (userId amount : String) (s : Store) : Store × Nat :=
  let students := getAllStudents s
  students.foldl (rentStep userId amount) (s, 0)

/-! ## Mutation sequences -/

/-- The balance-mutating operations of the spec's Balance Mutator, as invoked
through the four mutating endpoints. -/
inductive Op where
  | paycheck (userId amount : String)
  | rent (userId amount : String)
  | adjust (userId studentId amount description ty : String)
  | patchRequest (userId : String) (requestId : Nat) (status : String)

/-- Run one operation against the store, discarding the response payload. -/
def applyOp : Op → Store → Store
  | .paycheck u a, s => (distributePaycheck u a s).1
  | .rent u a, s => (collectRent u a s).1
  | .adjust u sid a d ty, s => (adjustBalance u sid a d ty s).1
  | .patchRequest u rid st, s => (patchWithdrawalRequest u rid st s).1

/-- Run a sequence of operations. -/
def applyOps (ops : List Op) (s : Store) : Store :=
  ops.foldl (fun st op => applyOp op st) s

/-- Sum of the amounts of an account's transactions. -/
def txSum (accountId : Nat) (ts : List Transaction) : ℚ :=
  ((ts.filter (fun t => t.accountId = accountId)).map (fun t => amountQ t.amount)).sum

/-- The ledger reconciliation invariant: each account's transaction amounts sum
to its stored balance. -/
def ledgerOk (s : Store) : Prop :=
  ∀ a ∈ s.accounts, txSum a.id s.transactions = amountQ a.balance

/-- Well-formedness of a store state as produced by the application itself:
balances denote whole cent counts, user ids and account ids are unique, and the
ledger reconciles. -/
structure StoreWF (s : Store) : Prop where
  balances : ∀ a ∈ s.accounts, ∃ n : ℤ, parseFloatQ a.balance = some ((n : ℚ) / 100)
  userIds : (s.accounts.map Account.userId).Nodup
  ids : (s.accounts.map Account.id).Nodup
  ledger : ledgerOk s

/-- Validity of an operation's input as the client-side forms guarantee it:
the amount is a positive whole number of cents rendered with two decimals
(`toFixed(2)` output), and the adjustment type is one of the two forms. -/
def OpValid : Op → Prop
  | .paycheck _ a => ∃ m : ℤ, 0 < m ∧ a = centsRender m
  | .rent _ a => ∃ m : ℤ, 0 < m ∧ a = centsRender m
  | .adjust _ _ a _ ty => (∃ m : ℤ, 0 < m ∧ a = centsRender m) ∧ (ty = "add" ∨ ty = "subtract")
  | .patchRequest _ _ _ => True

/-- The transaction row the paycheck loop inserts for one student. -/
def paycheckTxOf (userId amount : String) (x : Account) : Transaction :=
  { accountId := x.id, type := "paycheck", amount := amount,
    description := "Weekly Paycheck", createdBy := userId }

/-- The `newBalance` the rent loop computes for one student. -/
def rentNewBalance (amount : String) (x : Account) : String :=
  toFixed2 (jsMax0 (jsSub (parseFloatQ x.balance) (parseFloatQ amount)))

/-- The `actualDeduction` the rent loop computes for one student. -/
def rentActualDeduction (amount : String) (x : Account) : Option ℚ :=
  jsSub (parseFloatQ x.balance) (parseFloatQ (rentNewBalance amount x))

/-- Whether the rent loop inserts a transaction (and bumps the counter)
for this student. -/
def rentEmits (amount : String) (x : Account) : Bool :=
  jsGtZero (parseFloatQ x.balance) && jsGtZero (rentActualDeduction amount x)

/-- The transaction row the rent loop inserts for one student. -/
def rentTxOf (userId amount : String) (x : Account) : Transaction :=
  { accountId := x.id, type := "rent",
    amount := "-" ++ toFixed2 (rentActualDeduction amount x),
    description := "Monthly Rent", createdBy := userId }

/-- The net effect of one paycheck run on one stored account row: the row is
rewritten by the loop iteration of the student with the same user id, if any. -/
def paycheckUpdate (amount : String) (l : List Account) (a : Account) : Account :=
  match l.find? (fun x => x.userId = a.userId) with
  | some x => { a with balance := toFixed2 (jsAdd (parseFloatQ x.balance) (parseFloatQ amount)) }
  | none => a

/-- The net effect of one rent run on one stored account row: the row is
rewritten by the iteration of the positive-balance student with the same
user id, if any. -/
def rentUpdate (amount : String) (l : List Account) (a : Account) : Account :=
  match l.find? (fun x => jsGtZero (parseFloatQ x.balance) && x.userId = a.userId) with
  | some x => { a with balance := rentNewBalance amount x }
  | none => a

/-- The amount string an operation carries. -/
def opAmount : Op → String
  | .paycheck _ a => a
  | .rent _ a => a
  | .adjust _ _ a _ _ => a
  | .patchRequest _ _ _ => ""

/-! ## Concrete demonstration stores (for witnesses and counterexamples) -/

/-- One student at $25.00 whose ledger reconciles, with a pending withdrawal
request for the full $25.00 — the spec's approval example scenario. -/
def demoStore : Store :=
  { accounts := [{ id := 7, userId := "alice", balance := "25.00" }],
    transactions := [{ accountId := 7, type := "deposit", amount := "25.00",
                       description := "Initial deposit", createdBy := "teacher1" }],
    requests := [{ id := 1, accountId := 7, amount := "25.00", reason := "toy",
                   status := "pending", reviewedBy := "" }] }

/-- `demoStore` after its request has been approved once. -/
def demoStoreApproved : Store := (patchWithdrawalRequest "teacher1" 1 "approved" demoStore).1

/-- One student at $30.00 whose ledger reconciles — the spec's rent example. -/
def rentStore : Store :=
  { accounts := [{ id := 3, userId := "bob", balance := "30.00" }],
    transactions := [{ accountId := 3, type := "paycheck", amount := "30.00",
                       description := "Weekly Paycheck", createdBy := "teacher1" }],
    requests := [] }

/-- Two students, one of them at zero balance, ledger reconciling. -/
def twoStore : Store :=
  { accounts := [{ id := 3, userId := "bob", balance := "30.00" },
                 { id := 4, userId := "carol", balance := "0.00" }],
    transactions := [{ accountId := 3, type := "paycheck", amount := "30.00",
                       description := "Weekly Paycheck", createdBy := "teacher1" }],
    requests := [{ id := 1, accountId := 3, amount := "10.00", reason := "book",
                   status := "pending", reviewedBy := "" }] }

/-- One student at $100.00, ledger reconciling — the spec's adjustment example. -/
def adjStore : Store :=
  { accounts := [{ id := 9, userId := "dana", balance := "100.00" }],
    transactions := [{ accountId := 9, type := "bonus", amount := "100.00",
                       description := "Reward", createdBy := "teacher1" }],
    requests := [] }

/-- The transaction the paycheck of amount "5" appends to `rentStore`. -/
def c9Tx : Transaction :=
  { accountId := 3, type := "paycheck", amount := "5",
    description := "Weekly Paycheck", createdBy := "teacher1" }

/-- A sample sequence touching all four mutating endpoints. -/
def demoOps : List Op :=
  [Op.paycheck "teacher1" (centsRender 500), Op.rent "teacher1" (centsRender 200),
   Op.adjust "teacher1" "bob" (centsRender 100) "Talking Back" "subtract",
   Op.patchRequest "teacher1" 1 "approved"]

/-! ## Parser / renderer lemmas -/

theorem digit?_digitChar (d : Nat) (h : d < 10) : digit? (digitChar d) = some d := by
  interval_cases d <;> decide

theorem digitChar_ne_dash (d : Nat) (h : d < 10) : digitChar d ≠ '-' := by
  interval_cases d <;> decide

theorem digitChar_ne_plus (d : Nat) (h : d < 10) : digitChar d ≠ '+' := by
  interval_cases d <;> decide

theorem spanDigits_digits_append (ds : List Nat) (rest : List Char) (h : ∀ d ∈ ds, d < 10) :
    spanDigits (ds.map digitChar ++ rest) = (ds ++ (spanDigits rest).1, (spanDigits rest).2) := by
  induction ds with
  | nil => simp [spanDigits]
  | cons d ds ih =>
    have hd : d < 10 := h d (by simp)
    have hstep : spanDigits (digitChar d :: (ds.map digitChar ++ rest))
        = (d :: (spanDigits (ds.map digitChar ++ rest)).1,
           (spanDigits (ds.map digitChar ++ rest)).2) := by
      simp [spanDigits, digit?_digitChar d hd]
    rw [List.map_cons, List.cons_append, hstep, ih (fun x hx => h x (by simp [hx]))]
    simp

theorem spanDigits_digits (ds : List Nat) (h : ∀ d ∈ ds, d < 10) :
    spanDigits (ds.map digitChar) = (ds, []) := by
  have h1 := spanDigits_digits_append ds [] h
  simpa [spanDigits] using h1

theorem foldl_digitsVal (ds : List Nat) (x : Nat) :
    ds.foldl (fun a d => 10 * a + d) x = x * 10 ^ ds.length + digitsVal ds := by
  induction ds generalizing x with
  | nil => simp [digitsVal]
  | cons d ds ih =>
    simp only [List.foldl_cons, List.length_cons, digitsVal]
    rw [ih (10 * x + d), ih (10 * 0 + d)]
    ring

theorem digitsVal_append (a b : List Nat) :
    digitsVal (a ++ b) = digitsVal a * 10 ^ b.length + digitsVal b := by
  unfold digitsVal
  rw [List.foldl_append]
  exact foldl_digitsVal b _

theorem natToDigitNats_lt10 (n : Nat) : ∀ d ∈ natToDigitNats n, d < 10 := by
  induction n using Nat.strong_induction_on with
  | _ n ih =>
    rw [natToDigitNats]
    split
    · intro d hd
      rw [List.mem_singleton] at hd
      omega
    · intro d hd
      rcases List.mem_append.mp hd with h | h
      · exact ih (n / 10) (Nat.div_lt_self (by omega) (by omega)) d h
      · rw [List.mem_singleton] at h
        omega

theorem digitsVal_natToDigitNats (n : Nat) : digitsVal (natToDigitNats n) = n := by
  induction n using Nat.strong_induction_on with
  | _ n ih =>
    rw [natToDigitNats]
    split
    · simp [digitsVal]
    · rw [digitsVal_append, ih (n / 10) (Nat.div_lt_self (by omega) (by omega))]
      simp only [List.length_singleton, pow_one]
      have : digitsVal [n % 10] = n % 10 := by simp [digitsVal]
      rw [this]
      omega

theorem natToDigitNats_ne_nil (n : Nat) : natToDigitNats n ≠ [] := by
  rw [natToDigitNats]
  split <;> simp

theorem spanDigits_dot (l : List Char) : spanDigits ('.' :: l) = ([], '.' :: l) := by
  have : digit? '.' = none := by decide
  simp [spanDigits, this]

theorem parseUnsigned_centsChars (m : Nat) :
    parseUnsigned (centsChars m) = some ((m : ℚ) / 100) := by
  have hint : ∀ d ∈ natToDigitNats (m / 100), d < 10 := natToDigitNats_lt10 _
  have hfrac : ∀ d ∈ [m % 100 / 10, m % 10], d < 10 := by
    intro d hd
    rcases List.mem_cons.mp hd with h | h
    · omega
    · rw [List.mem_singleton] at h
      omega
  have hsplit : spanDigits (centsChars m)
      = (natToDigitNats (m / 100),
         '.' :: [digitChar (m % 100 / 10), digitChar (m % 10)]) := by
    have hshape : centsChars m
        = (natToDigitNats (m / 100)).map digitChar
          ++ ('.' :: [digitChar (m % 100 / 10), digitChar (m % 10)]) := by
      simp [centsChars, natToDigits]
    rw [hshape, spanDigits_digits_append _ _ hint, spanDigits_dot]
    simp
  have hfracspan : spanDigits [digitChar (m % 100 / 10), digitChar (m % 10)]
      = ([m % 100 / 10, m % 10], []) := by
    have h1 := spanDigits_digits [m % 100 / 10, m % 10] hfrac
    simpa using h1
  have hne : (natToDigitNats (m / 100)).isEmpty = false := by
    simp [List.isEmpty_iff, natToDigitNats_ne_nil]
  simp only [parseUnsigned, hsplit, List.head?_cons, List.tail_cons, hfracspan,
    hne, Bool.false_and, if_pos rfl, if_neg (Bool.false_ne_true)]
  rw [if_pos trivial]
  rw [digitsVal_natToDigitNats]
  have hdv : digitsVal [m % 100 / 10, m % 10] = m % 100 := by
    simp only [digitsVal, List.foldl_cons, List.foldl_nil]
    omega
  rw [hdv]
  have hm : (100 : ℚ) * ((m / 100 : ℕ) : ℚ) + ((m % 100 : ℕ) : ℚ) = (m : ℚ) := by
    exact_mod_cast congrArg (Nat.cast : ℕ → ℚ) (Nat.div_add_mod m 100)
  have h100 : (100 : ℚ) ≠ 0 := by norm_num
  rw [List.length_cons, List.length_singleton]
  rw [Option.some_inj, eq_div_iff h100]
  field_simp
  linarith [hm]

theorem centsChars_head (m : Nat) :
    ∃ d cs, centsChars m = digitChar d :: cs ∧ d < 10 := by
  obtain ⟨d, t, ht⟩ := List.exists_cons_of_ne_nil (natToDigitNats_ne_nil (m / 100))
  refine ⟨d, t.map digitChar ++ '.' :: [digitChar (m % 100 / 10), digitChar (m % 10)], ?_, ?_⟩
  · simp [centsChars, natToDigits, ht]
  · exact natToDigitNats_lt10 (m / 100) d (by rw [ht]; simp)

theorem parseSigned_dash (l : List Char) :
    parseSigned ('-' :: l) = (parseUnsigned l).map (fun q => -q) := by
  simp [parseSigned]

theorem parseSigned_digit (d : Nat) (hd : d < 10) (l : List Char) :
    parseSigned (digitChar d :: l) = parseUnsigned (digitChar d :: l) := by
  simp [parseSigned, digitChar_ne_dash d hd, digitChar_ne_plus d hd]

theorem parseFloatQ_centsRender (n : ℤ) :
    parseFloatQ (centsRender n) = some ((n : ℚ) / 100) := by
  show parseSigned ((if n < 0 then ['-'] else []) ++ centsChars n.natAbs) = _
  by_cases hn : n < 0
  · rw [if_pos hn, List.singleton_append, parseSigned_dash, parseUnsigned_centsChars]
    have habs : ((n.natAbs : ℕ) : ℚ) = -(n : ℚ) := by
      rw [Int.cast_natAbs]
      exact_mod_cast abs_of_nonpos (le_of_lt hn)
    have hmap : Option.map (fun q : ℚ => -q) (some (((n.natAbs : ℕ) : ℚ) / 100))
        = some (-(((n.natAbs : ℕ) : ℚ) / 100)) := rfl
    rw [hmap, habs]
    congr 1
    ring
  · rw [if_neg hn]
    obtain ⟨d, cs, hc, hd⟩ := centsChars_head n.natAbs
    rw [List.nil_append, hc, parseSigned_digit d hd, ← hc, parseUnsigned_centsChars]
    have habs : ((n.natAbs : ℕ) : ℚ) = (n : ℚ) := by
      rw [Int.cast_natAbs]
      exact_mod_cast abs_of_nonneg (not_lt.mp hn)
    rw [habs]

theorem parseFloatQ_dash_centsRender (n : ℤ) (h : 0 ≤ n) :
    parseFloatQ ("-" ++ centsRender n) = some (-((n : ℚ) / 100)) := by
  have hdata : ("-" ++ centsRender n).data = '-' :: centsChars n.natAbs := by
    rw [String.data_append]
    show ['-'] ++ _ = _
    rw [centsRender, if_neg (by omega)]
    rfl
  show parseSigned ("-" ++ centsRender n).data = _
  rw [hdata, parseSigned_dash, parseUnsigned_centsChars]
  have habs : ((n.natAbs : ℕ) : ℚ) = (n : ℚ) := by
    rw [Int.cast_natAbs]
    exact_mod_cast abs_of_nonneg h
  have hmap : Option.map (fun q : ℚ => -q) (some (((n.natAbs : ℕ) : ℚ) / 100))
      = some (-(((n.natAbs : ℕ) : ℚ) / 100)) := rfl
  rw [hmap, habs]

theorem floor_half : ⌊(1 / 2 : ℚ)⌋ = 0 := by
  rw [Int.floor_eq_zero_iff]
  constructor <;> norm_num

theorem toFixed2_cents (n : ℤ) : toFixed2 (some ((n : ℚ) / 100)) = centsRender n := by
  show centsRender ⌊(n : ℚ) / 100 * 100 + 1 / 2⌋ = centsRender n
  congr 1
  have h1 : ((n : ℚ) / 100) * 100 + 1 / 2 = 1 / 2 + (n : ℚ) := by
    field_simp
    ring
  rw [h1, Int.floor_add_int, floor_half, zero_add]

theorem hasTwoFracDigits_append_centsRender (p : List Char) (n : ℤ) :
    hasTwoFracDigits ⟨p ++ (centsRender n).data⟩ = true := by
  have hdata : (⟨p ++ (centsRender n).data⟩ : String).data
      = p ++ ((if n < 0 then ['-'] else []) ++ centsChars n.natAbs) := rfl
  unfold hasTwoFracDigits
  rw [hdata]
  have hshape : centsChars n.natAbs
      = (natToDigits (n.natAbs / 100) ++ ['.', digitChar (n.natAbs % 100 / 10)])
        ++ [digitChar (n.natAbs % 10)] := by
    simp [centsChars]
  rw [hshape]
  simp only [← List.append_assoc, List.reverse_append, List.reverse_cons, List.reverse_nil]
  simp only [List.nil_append, List.singleton_append, List.cons_append]
  have h10 : (digit? (digitChar (n.natAbs % 100 / 10))).isSome = true := by
    rw [digit?_digitChar _ (by omega)]
    rfl
  have h1 : (digit? (digitChar (n.natAbs % 10))).isSome = true := by
    rw [digit?_digitChar _ (by omega)]
    rfl
  simp [h10, h1]

theorem hasTwoFracDigits_centsRender (n : ℤ) : hasTwoFracDigits (centsRender n) = true := by
  have := hasTwoFracDigits_append_centsRender [] n
  simpa using this

/-! ## Cent-valued arithmetic -/

theorem jsAdd_cents (n m : ℤ) :
    jsAdd (some ((n : ℚ) / 100)) (some ((m : ℚ) / 100)) = some (((n + m : ℤ) : ℚ) / 100) := by
  show some ((n : ℚ) / 100 + (m : ℚ) / 100) = _
  congr 1
  push_cast
  ring

theorem jsSub_cents (n m : ℤ) :
    jsSub (some ((n : ℚ) / 100)) (some ((m : ℚ) / 100)) = some (((n - m : ℤ) : ℚ) / 100) := by
  show some ((n : ℚ) / 100 - (m : ℚ) / 100) = _
  congr 1
  push_cast
  ring

theorem jsMax0_cents (n : ℤ) :
    jsMax0 (some ((n : ℚ) / 100)) = some (((max 0 n : ℤ) : ℚ) / 100) := by
  show some (max 0 ((n : ℚ) / 100)) = _
  congr 1
  rw [Int.cast_max, Int.cast_zero]
  rw [show (0 : ℚ) = 0 / 100 by norm_num]
  rw [max_div_div_right (by norm_num : (0 : ℚ) ≤ 100)]
  norm_num

theorem jsGtZero_cents (n : ℤ) :
    jsGtZero (some ((n : ℚ) / 100)) = decide (0 < n) := by
  show decide (0 < (n : ℚ) / 100) = decide (0 < n)
  rw [decide_eq_decide]
  rw [lt_div_iff₀ (by norm_num : (0 : ℚ) < 100), zero_mul]
  exact Int.cast_pos

theorem jsLtZero_cents (n : ℤ) :
    jsLtZero (some ((n : ℚ) / 100)) = decide (n < 0) := by
  show decide ((n : ℚ) / 100 < 0) = decide (n < 0)
  rw [decide_eq_decide]
  rw [div_lt_iff₀ (by norm_num : (0 : ℚ) < 100), zero_mul]
  constructor
  · exact fun h => by exact_mod_cast h
  · exact fun h => by exact_mod_cast h

theorem amountQ_centsRender (n : ℤ) : amountQ (centsRender n) = (n : ℚ) / 100 := by
  unfold amountQ
  rw [parseFloatQ_centsRender]
  rfl

theorem amountQ_dash_centsRender (n : ℤ) (h : 0 ≤ n) :
    amountQ ("-" ++ centsRender n) = -((n : ℚ) / 100) := by
  unfold amountQ
  rw [parseFloatQ_dash_centsRender n h]
  rfl

/-! ## Ledger sum lemmas -/

theorem txSum_append (i : Nat) (ts us : List Transaction) :
    txSum i (ts ++ us) = txSum i ts + txSum i us := by
  unfold txSum
  rw [List.filter_append, List.map_append, List.sum_append]

theorem txSum_single (i : Nat) (t : Transaction) :
    txSum i [t] = if t.accountId = i then amountQ t.amount else 0 := by
  unfold txSum
  by_cases h : t.accountId = i <;> simp [h]

theorem txSum_map_of_mem (txOf : Account → Transaction)
    (hid : ∀ x, (txOf x).accountId = x.id) (l : List Account)
    (hnd : (l.map Account.id).Nodup) (a : Account) (ha : a ∈ l) :
    txSum a.id (l.map txOf) = amountQ (txOf a).amount := by
  induction l with
  | nil => cases ha
  | cons y l ih =>
    rw [List.map_cons] at hnd ⊢
    rw [List.nodup_cons] at hnd
    obtain ⟨hy, hnd'⟩ := hnd
    rw [show txOf y :: l.map txOf = [txOf y] ++ l.map txOf from rfl, txSum_append]
    rcases List.mem_cons.mp ha with rfl | hmem
    · have hzero : txSum a.id (l.map txOf) = 0 := by
        unfold txSum
        have : (l.map txOf).filter (fun t => t.accountId = a.id) = [] := by
          rw [List.filter_eq_nil_iff]
          intro t ht
          obtain ⟨x, hx, rfl⟩ := List.mem_map.mp ht
          simp only [hid x, decide_eq_true_eq]
          intro hcontra
          exact hy (hcontra ▸ List.mem_map_of_mem Account.id hx)
        rw [this]
        rfl
      rw [hzero, txSum_single, if_pos (hid a), add_zero]
    · have hne : (txOf y).accountId ≠ a.id := by
        rw [hid y]
        intro hcontra
        exact hy (hcontra ▸ List.mem_map_of_mem Account.id hmem)
      rw [txSum_single, if_neg hne, zero_add, ih hnd' hmem]

theorem txSum_map_of_not_mem (txOf : Account → Transaction)
    (hid : ∀ x, (txOf x).accountId = x.id) (l : List Account)
    (i : Nat) (hi : i ∉ l.map Account.id) :
    txSum i (l.map txOf) = 0 := by
  unfold txSum
  have : (l.map txOf).filter (fun t => t.accountId = i) = [] := by
    rw [List.filter_eq_nil_iff]
    intro t ht
    obtain ⟨x, hx, rfl⟩ := List.mem_map.mp ht
    simp only [hid x, decide_eq_true_eq]
    intro hcontra
    exact hi (hcontra ▸ List.mem_map_of_mem Account.id hx)
  rw [this]
  rfl

/-! ## Account lookup lemmas -/

theorem find?_userId_unique (l : List Account) (hnd : (l.map Account.userId).Nodup)
    (a : Account) (ha : a ∈ l) (p : Account → Bool) :
    l.find? (fun x => p x && x.userId = a.userId) = if p a then some a else none := by
  induction l with
  | nil => cases ha
  | cons y l ih =>
    rw [List.map_cons, List.nodup_cons] at hnd
    obtain ⟨hy, hnd'⟩ := hnd
    rcases List.mem_cons.mp ha with rfl | hmem
    · by_cases hp : p a
      · rw [if_pos hp]
        rw [List.find?_cons_of_pos _ (by simp [hp])]
      · rw [if_neg hp]
        rw [List.find?_cons_of_neg _ (by simp [hp])]
        rw [List.find?_eq_none]
        intro x hx
        simp only [Bool.and_eq_true, decide_eq_true_eq, not_and]
        intro _ hcontra
        exact absurd (hcontra ▸ List.mem_map_of_mem Account.userId hx) hy
    · have hyne : y.userId ≠ a.userId := by
        intro hcontra
        exact hy (hcontra ▸ List.mem_map_of_mem Account.userId hmem)
      rw [List.find?_cons_of_neg _ (by simp [hyne]), ih hnd' hmem]

/-! ## Closed forms of the batch loops -/

theorem paycheck_foldl (u amt : String) (l : List Account) (st : Store)
    (hnd : (l.map Account.userId).Nodup) :
    l.foldl (paycheckStep u amt) st
      = { st with
          accounts := st.accounts.map (paycheckUpdate amt l),
          transactions := st.transactions ++ l.map (paycheckTxOf u amt) } := by
  induction l generalizing st with
  | nil =>
    simp only [List.foldl_nil, List.map_nil, List.append_nil]
    have h1 : st.accounts.map (paycheckUpdate amt []) = st.accounts.map id :=
      List.map_congr_left (fun a _ => rfl)
    cases st
    simp only [h1, List.map_id]
  | cons x l ih =>
    rw [List.map_cons, List.nodup_cons] at hnd
    obtain ⟨hx, hnd'⟩ := hnd
    rw [List.foldl_cons, ih _ hnd']
    have hacc : (paycheckStep u amt st x).accounts
        = st.accounts.map (fun a =>
            if a.userId = x.userId then
              { a with balance := toFixed2 (jsAdd (parseFloatQ x.balance) (parseFloatQ amt)) }
            else a) := rfl
    have htx : (paycheckStep u amt st x).transactions
        = st.transactions ++ [paycheckTxOf u amt x] := rfl
    have hreq : (paycheckStep u amt st x).requests = st.requests := rfl
    refine Store.mk.injEq .. ▸ ?_
    refine ⟨?_, ?_, hreq⟩
    · rw [hacc, List.map_map]
      apply List.map_congr_left
      intro a ha
      by_cases hcase : a.userId = x.userId
      · have h1 : l.find? (fun y => y.userId = a.userId) = none := by
          rw [List.find?_eq_none]
          intro y hy
          simp only [decide_eq_true_eq]
          intro hcontra
          exact hx ((hcontra.trans hcase) ▸ List.mem_map_of_mem Account.userId hy)
        have hfind : (x :: l).find? (fun y => y.userId = a.userId) = some x := by
          apply List.find?_cons_of_pos
          simp [hcase]
        simp only [paycheckUpdate, Function.comp_apply, if_pos hcase, h1, hfind]
      · have hfind : (x :: l).find? (fun y => y.userId = a.userId)
            = l.find? (fun y => y.userId = a.userId) := by
          apply List.find?_cons_of_neg
          simp only [decide_eq_true_eq]
          exact fun h => hcase h.symm
        simp only [paycheckUpdate, Function.comp_apply, if_neg hcase, hfind]
    · rw [htx, List.map_cons, List.append_assoc]
      rfl

theorem rentStep_eq (u amt : String) (acc : Store × Nat) (x : Account) :
    rentStep u amt acc x
      = (if jsGtZero (parseFloatQ x.balance) then
           (let st1 := updateAccountBalance x.userId (rentNewBalance amt x) acc.1
            if jsGtZero (rentActualDeduction amt x) then
              (createTransaction (rentTxOf u amt x) st1, acc.2 + 1)
            else (st1, acc.2))
         else acc) := rfl

theorem rent_foldl (u amt : String) (l : List Account) (st : Store) (k : Nat)
    (hnd : (l.map Account.userId).Nodup) :
    l.foldl (rentStep u amt) (st, k)
      = ({ st with
           accounts := st.accounts.map (rentUpdate amt l),
           transactions := st.transactions ++ (l.filter (rentEmits amt)).map (rentTxOf u amt) },
         k + l.countP (rentEmits amt)) := by
  induction l generalizing st k with
  | nil =>
    simp only [List.foldl_nil, List.filter_nil, List.map_nil, List.append_nil,
      List.countP_nil, Nat.add_zero]
    have h1 : st.accounts.map (rentUpdate amt []) = st.accounts.map id :=
      List.map_congr_left (fun a _ => rfl)
    cases st
    simp only [h1, List.map_id]
  | cons x l ih =>
    rw [List.map_cons, List.nodup_cons] at hnd
    obtain ⟨hx, hnd'⟩ := hnd
    rw [List.foldl_cons, rentStep_eq]
    by_cases hb : jsGtZero (parseFloatQ x.balance)
    · rw [if_pos hb]
      by_cases hd' : jsGtZero (rentActualDeduction amt x)
      · rw [if_pos hd']
        rw [ih _ _ hnd']
        have hemit : rentEmits amt x = true := by
          unfold rentEmits
          rw [hb, hd']
          rfl
        have hcnt : (x :: l).countP (rentEmits amt) = l.countP (rentEmits amt) + 1 := by
          rw [List.countP_cons, hemit]
          rfl
        have hfil : (x :: l).filter (rentEmits amt) = x :: l.filter (rentEmits amt) :=
          List.filter_cons_of_pos hemit
        refine Prod.ext ?_ ?_
        · refine Store.mk.injEq .. ▸ ?_
          refine ⟨?_, ?_, rfl⟩
          · show (List.map _ (List.map _ st.accounts)) = _
            rw [List.map_map]
            apply List.map_congr_left
            intro a ha
            by_cases hcase : a.userId = x.userId
            · have h1 : l.find? (fun y =>
                  jsGtZero (parseFloatQ y.balance) && y.userId = a.userId) = none := by
                rw [List.find?_eq_none]
                intro y hy
                simp only [Bool.and_eq_true, decide_eq_true_eq, not_and]
                intro _ hcontra
                exact hx ((hcontra.trans hcase) ▸ List.mem_map_of_mem Account.userId hy)
              have hfind : (x :: l).find?
                  (fun y => jsGtZero (parseFloatQ y.balance) && y.userId = a.userId)
                  = some x := by
                apply List.find?_cons_of_pos
                simp [hb, hcase]
              simp only [rentUpdate, Function.comp_apply, if_pos hcase, h1, hfind]
            · have hfind : (x :: l).find?
                  (fun y => jsGtZero (parseFloatQ y.balance) && y.userId = a.userId)
                  = l.find? (fun y => jsGtZero (parseFloatQ y.balance) && y.userId = a.userId) := by
                apply List.find?_cons_of_neg
                simp only [Bool.and_eq_true, decide_eq_true_eq, not_and]
                exact fun _ h => hcase h.symm
              simp only [rentUpdate, Function.comp_apply, if_neg hcase, hfind]
          · show (st.transactions ++ [rentTxOf u amt x]) ++ _ = _
            rw [hfil, List.map_cons, List.append_assoc]
            rfl
        · show (k + 1) + l.countP (rentEmits amt) = k + (x :: l).countP (rentEmits amt)
          rw [hcnt]
          omega
      · rw [if_neg hd']
        rw [ih _ _ hnd']
        rw [Bool.not_eq_true] at hd'
        have hemit : rentEmits amt x = false := by
          unfold rentEmits
          rw [hd']
          simp
        have hcnt : (x :: l).countP (rentEmits amt) = l.countP (rentEmits amt) := by
          rw [List.countP_cons, hemit]
          rfl
        have hfil : (x :: l).filter (rentEmits amt) = l.filter (rentEmits amt) :=
          List.filter_cons_of_neg (by rw [hemit]; exact Bool.false_ne_true)
        refine Prod.ext ?_ ?_
        · refine Store.mk.injEq .. ▸ ?_
          refine ⟨?_, ?_, rfl⟩
          · show (List.map _ (List.map _ st.accounts)) = _
            rw [List.map_map]
            apply List.map_congr_left
            intro a ha
            by_cases hcase : a.userId = x.userId
            · have h1 : l.find? (fun y =>
                  jsGtZero (parseFloatQ y.balance) && y.userId = a.userId) = none := by
                rw [List.find?_eq_none]
                intro y hy
                simp only [Bool.and_eq_true, decide_eq_true_eq, not_and]
                intro _ hcontra
                exact hx ((hcontra.trans hcase) ▸ List.mem_map_of_mem Account.userId hy)
              have hfind : (x :: l).find?
                  (fun y => jsGtZero (parseFloatQ y.balance) && y.userId = a.userId)
                  = some x := by
                apply List.find?_cons_of_pos
                simp [hb, hcase]
              simp only [rentUpdate, Function.comp_apply, if_pos hcase, h1, hfind]
            · have hfind : (x :: l).find?
                  (fun y => jsGtZero (parseFloatQ y.balance) && y.userId = a.userId)
                  = l.find? (fun y => jsGtZero (parseFloatQ y.balance) && y.userId = a.userId) := by
                apply List.find?_cons_of_neg
                simp only [Bool.and_eq_true, decide_eq_true_eq, not_and]
                exact fun _ h => hcase h.symm
              simp only [rentUpdate, Function.comp_apply, if_neg hcase, hfind]
          · rw [hfil]
            rfl
        · show k + l.countP (rentEmits amt) = k + (x :: l).countP (rentEmits amt)
          rw [hcnt]
    · rw [if_neg hb]
      rw [ih _ _ hnd']
      rw [Bool.not_eq_true] at hb
      have hemit : rentEmits amt x = false := by
        unfold rentEmits
        rw [hb]
        simp
      have hcnt : (x :: l).countP (rentEmits amt) = l.countP (rentEmits amt) := by
        rw [List.countP_cons, hemit]
        rfl
      have hfil : (x :: l).filter (rentEmits amt) = l.filter (rentEmits amt) :=
        List.filter_cons_of_neg (by rw [hemit]; exact Bool.false_ne_true)
      refine Prod.ext ?_ ?_
      · refine Store.mk.injEq .. ▸ ?_
        refine ⟨?_, ?_, rfl⟩
        · apply List.map_congr_left
          intro a ha
          have hfind : (x :: l).find?
              (fun y => jsGtZero (parseFloatQ y.balance) && y.userId = a.userId)
              = l.find? (fun y => jsGtZero (parseFloatQ y.balance) && y.userId = a.userId) := by
            apply List.find?_cons_of_neg
            simp [hb]
          simp only [rentUpdate, hfind]
        · rw [hfil]
      · show k + l.countP (rentEmits amt) = k + (x :: l).countP (rentEmits amt)
        rw [hcnt]

/-! ## Per-account update facts -/

theorem find?_userId_self (l : List Account) (hnd : (l.map Account.userId).Nodup)
    (a : Account) (ha : a ∈ l) :
    l.find? (fun x => x.userId = a.userId) = some a := by
  induction l with
  | nil => cases ha
  | cons y l ih =>
    rw [List.map_cons, List.nodup_cons] at hnd
    obtain ⟨hy, hnd'⟩ := hnd
    rcases List.mem_cons.mp ha with rfl | hmem
    · apply List.find?_cons_of_pos
      simp
    · have hyne : y.userId ≠ a.userId := fun h => hy (h ▸ List.mem_map_of_mem Account.userId hmem)
      have hstep : (y :: l).find? (fun x => x.userId = a.userId)
          = l.find? (fun x => x.userId = a.userId) := by
        apply List.find?_cons_of_neg
        simp [hyne]
      rw [hstep, ih hnd' hmem]

theorem amountQ_of_parse (s : String) (q : ℚ) (h : parseFloatQ s = some q) : amountQ s = q := by
  unfold amountQ
  rw [h]
  rfl

theorem paycheckUpdate_userId (amt : String) (l : List Account) (a : Account) :
    (paycheckUpdate amt l a).userId = a.userId := by
  unfold paycheckUpdate
  cases l.find? (fun x => x.userId = a.userId) <;> rfl

theorem paycheckUpdate_accountId (amt : String) (l : List Account) (a : Account) :
    (paycheckUpdate amt l a).id = a.id := by
  unfold paycheckUpdate
  cases l.find? (fun x => x.userId = a.userId) <;> rfl

theorem rentUpdate_userId (amt : String) (l : List Account) (a : Account) :
    (rentUpdate amt l a).userId = a.userId := by
  unfold rentUpdate
  cases l.find? (fun x => jsGtZero (parseFloatQ x.balance) && x.userId = a.userId) <;> rfl

theorem rentUpdate_accountId (amt : String) (l : List Account) (a : Account) :
    (rentUpdate amt l a).id = a.id := by
  unfold rentUpdate
  cases l.find? (fun x => jsGtZero (parseFloatQ x.balance) && x.userId = a.userId) <;> rfl

theorem paycheckUpdate_self (amt : String) (l : List Account)
    (hnd : (l.map Account.userId).Nodup) (a : Account) (ha : a ∈ l) (n m : ℤ)
    (hn : parseFloatQ a.balance = some ((n : ℚ) / 100))
    (hamt : parseFloatQ amt = some ((m : ℚ) / 100)) :
    paycheckUpdate amt l a = { a with balance := centsRender (n + m) } := by
  unfold paycheckUpdate
  rw [find?_userId_self l hnd a ha]
  show { a with balance := toFixed2 (jsAdd (parseFloatQ a.balance) (parseFloatQ amt)) } = _
  rw [hn, hamt, jsAdd_cents, toFixed2_cents]

theorem rentUpdate_self (amt : String) (l : List Account)
    (hnd : (l.map Account.userId).Nodup) (a : Account) (ha : a ∈ l) (n m : ℤ)
    (hn : parseFloatQ a.balance = some ((n : ℚ) / 100))
    (hamt : parseFloatQ amt = some ((m : ℚ) / 100)) :
    rentUpdate amt l a
      = if 0 < n then { a with balance := centsRender (max 0 (n - m)) } else a := by
  unfold rentUpdate
  rw [find?_userId_unique l hnd a ha (fun x => jsGtZero (parseFloatQ x.balance)), hn,
    jsGtZero_cents]
  by_cases h : 0 < n
  · rw [if_pos (by simp [h]), if_pos h]
    show { a with balance := rentNewBalance amt a } = _
    unfold rentNewBalance
    rw [hn, hamt, jsSub_cents, jsMax0_cents, toFixed2_cents]
  · rw [if_neg (by simp [h]), if_neg h]

theorem rentEmits_cents (amt : String) (a : Account) (n m : ℤ)
    (hn : parseFloatQ a.balance = some ((n : ℚ) / 100))
    (hamt : parseFloatQ amt = some ((m : ℚ) / 100)) (hm : 0 < m) :
    rentEmits amt a = decide (0 < n) := by
  unfold rentEmits rentActualDeduction rentNewBalance
  rw [hn, hamt, jsSub_cents, jsMax0_cents, toFixed2_cents, parseFloatQ_centsRender,
    jsSub_cents, jsGtZero_cents, jsGtZero_cents]
  by_cases h : 0 < n
  · have h2 : 0 < n - max 0 (n - m) := by omega
    simp [h, h2]
  · simp [h]

theorem rentTxOf_amount (u amt : String) (a : Account) (n m : ℤ)
    (hn : parseFloatQ a.balance = some ((n : ℚ) / 100))
    (hamt : parseFloatQ amt = some ((m : ℚ) / 100)) :
    (rentTxOf u amt a).amount = "-" ++ centsRender (n - max 0 (n - m)) := by
  show "-" ++ toFixed2 (rentActualDeduction amt a) = _
  unfold rentActualDeduction rentNewBalance
  rw [hn, hamt, jsSub_cents, jsMax0_cents, toFixed2_cents, parseFloatQ_centsRender,
    jsSub_cents, toFixed2_cents]

theorem map_map_userId (f : Account → Account) (hf : ∀ a, (f a).userId = a.userId)
    (l : List Account) : (l.map f).map Account.userId = l.map Account.userId := by
  rw [List.map_map]
  exact List.map_congr_left (fun a _ => hf a)

theorem map_map_accountId (f : Account → Account) (hf : ∀ a, (f a).id = a.id)
    (l : List Account) : (l.map f).map Account.id = l.map Account.id := by
  rw [List.map_map]
  exact List.map_congr_left (fun a _ => hf a)

theorem filter_ids_nodup (p : Account → Bool) (l : List Account)
    (hnd : (l.map Account.id).Nodup) : ((l.filter p).map Account.id).Nodup :=
  List.Sublist.nodup (List.Sublist.map Account.id (List.filter_sublist l)) hnd

/-! ## The approval handler never reaches its deduction branch -/

theorem patchWithdrawalRequest_frame (u : String) (rid : Nat) (status : String) (s : Store) :
    patchWithdrawalRequest u rid status s = (updateWithdrawalRequest rid status u s, .ok) := by
  unfold patchWithdrawalRequest
  by_cases hst : status = "approved"
  · rw [if_pos hst]
    have hfind : (getPendingWithdrawalRequests (updateWithdrawalRequest rid status u s)).find?
        (fun r => r.id = rid) = none := by
      rw [List.find?_eq_none]
      intro r hr
      simp only [decide_eq_true_eq]
      intro hcontra
      obtain ⟨hr1, hr2⟩ := List.mem_filter.mp hr
      obtain ⟨r0, hr0, hupd⟩ := List.mem_map.mp hr1
      by_cases h : r0.id = rid
      · rw [if_pos h] at hupd
        rw [← hupd] at hr2
        simp only [decide_eq_true_eq] at hr2
        rw [hst] at hr2
        exact absurd hr2 (by decide)
      · rw [if_neg h] at hupd
        rw [← hupd] at hcontra
        exact h hcontra
    rw [hfind]
  · rw [if_neg hst]

/-! ## Preservation of well-formedness and the ledger invariant -/

theorem distributePaycheck_wf (u amt : String) (m : ℤ) (hamt : amt = centsRender m)
    (s : Store) (hwf : StoreWF s) : StoreWF (distributePaycheck u amt s).1 := by
  have hparse : parseFloatQ amt = some ((m : ℚ) / 100) := by
    rw [hamt]
    exact parseFloatQ_centsRender m
  have hres : (distributePaycheck u amt s).1 = s.accounts.foldl (paycheckStep u amt) s := rfl
  rw [hres, paycheck_foldl u amt s.accounts s hwf.userIds]
  constructor
  · intro a' ha'
    obtain ⟨a, ha, rfl⟩ := List.mem_map.mp ha'
    obtain ⟨n, hn⟩ := hwf.balances a ha
    rw [paycheckUpdate_self amt s.accounts hwf.userIds a ha n m hn hparse]
    exact ⟨n + m, parseFloatQ_centsRender (n + m)⟩
  · show ((s.accounts.map (paycheckUpdate amt s.accounts)).map Account.userId).Nodup
    rw [map_map_userId _ (paycheckUpdate_userId amt s.accounts)]
    exact hwf.userIds
  · show ((s.accounts.map (paycheckUpdate amt s.accounts)).map Account.id).Nodup
    rw [map_map_accountId _ (paycheckUpdate_accountId amt s.accounts)]
    exact hwf.ids
  · intro a' ha'
    obtain ⟨a, ha, rfl⟩ := List.mem_map.mp ha'
    obtain ⟨n, hn⟩ := hwf.balances a ha
    rw [paycheckUpdate_self amt s.accounts hwf.userIds a ha n m hn hparse]
    show txSum a.id (s.transactions ++ s.accounts.map (paycheckTxOf u amt))
        = amountQ (centsRender (n + m))
    rw [txSum_append, amountQ_centsRender,
      txSum_map_of_mem (paycheckTxOf u amt) (fun x => rfl) s.accounts hwf.ids a ha,
      hwf.ledger a ha, amountQ_of_parse a.balance _ hn]
    show (n : ℚ) / 100 + amountQ amt = ((n + m : ℤ) : ℚ) / 100
    rw [amountQ_of_parse amt _ hparse]
    push_cast
    ring

theorem collectRent_wf (u amt : String) (m : ℤ) (hm : 0 < m) (hamt : amt = centsRender m)
    (s : Store) (hwf : StoreWF s) : StoreWF (collectRent u amt s).1 := by
  have hparse : parseFloatQ amt = some ((m : ℚ) / 100) := by
    rw [hamt]
    exact parseFloatQ_centsRender m
  have hres : collectRent u amt s = s.accounts.foldl (rentStep u amt) (s, 0) := rfl
  rw [hres, rent_foldl u amt s.accounts s 0 hwf.userIds]
  constructor
  · intro a' ha'
    obtain ⟨a, ha, rfl⟩ := List.mem_map.mp ha'
    obtain ⟨n, hn⟩ := hwf.balances a ha
    rw [rentUpdate_self amt s.accounts hwf.userIds a ha n m hn hparse]
    by_cases h : 0 < n
    · rw [if_pos h]
      exact ⟨max 0 (n - m), parseFloatQ_centsRender _⟩
    · rw [if_neg h]
      exact ⟨n, hn⟩
  · show ((s.accounts.map (rentUpdate amt s.accounts)).map Account.userId).Nodup
    rw [map_map_userId _ (rentUpdate_userId amt s.accounts)]
    exact hwf.userIds
  · show ((s.accounts.map (rentUpdate amt s.accounts)).map Account.id).Nodup
    rw [map_map_accountId _ (rentUpdate_accountId amt s.accounts)]
    exact hwf.ids
  · intro a' ha'
    obtain ⟨a, ha, rfl⟩ := List.mem_map.mp ha'
    obtain ⟨n, hn⟩ := hwf.balances a ha
    rw [rentUpdate_self amt s.accounts hwf.userIds a ha n m hn hparse]
    have hemit := rentEmits_cents amt a n m hn hparse hm
    by_cases h : 0 < n
    · rw [if_pos h]
      show txSum a.id (s.transactions ++ (s.accounts.filter (rentEmits amt)).map (rentTxOf u amt))
          = amountQ (centsRender (max 0 (n - m)))
      have hmemf : a ∈ s.accounts.filter (rentEmits amt) :=
        List.mem_filter.mpr ⟨ha, by rw [hemit]; simp [h]⟩
      rw [txSum_append,
        txSum_map_of_mem (rentTxOf u amt) (fun x => rfl) (s.accounts.filter (rentEmits amt))
          (filter_ids_nodup (rentEmits amt) s.accounts hwf.ids) a hmemf,
        hwf.ledger a ha, amountQ_of_parse a.balance _ hn, amountQ_centsRender,
        rentTxOf_amount u amt a n m hn hparse, amountQ_dash_centsRender _ (by omega)]
      push_cast
      ring
    · rw [if_neg h]
      show txSum a.id (s.transactions ++ (s.accounts.filter (rentEmits amt)).map (rentTxOf u amt))
          = amountQ a.balance
      have hnotin : a.id ∉ (s.accounts.filter (rentEmits amt)).map Account.id := by
        intro hmemid
        obtain ⟨x, hx, hxid⟩ := List.mem_map.mp hmemid
        obtain ⟨hxmem, hxemit⟩ := List.mem_filter.mp hx
        have hxa : x = a := List.inj_on_of_nodup_map hwf.ids hxmem ha hxid
        rw [hxa, hemit] at hxemit
        simp [h] at hxemit
      rw [txSum_append, txSum_map_of_not_mem (rentTxOf u amt) (fun x => rfl) _ _ hnotin,
        hwf.ledger a ha, add_zero]

/-! ## The adjust-balance handler, characterized on cent-valued inputs -/

theorem adjustBalance_add_eq (u sid amt d : String) (s : Store) (account : Account)
    (hacc : getAccount sid s = some account) (n m : ℤ)
    (hn : parseFloatQ account.balance = some ((n : ℚ) / 100))
    (hamt : parseFloatQ amt = some ((m : ℚ) / 100)) :
    adjustBalance u sid amt d "add" s
      = if n + m < 0 then (s, ApiResult.err 400 "Balance cannot be negative")
        else (createTransaction
                { accountId := account.id, type := "bonus", amount := amt,
                  description := d, createdBy := u }
                (updateAccountBalance sid (centsRender (n + m)) s), ApiResult.ok) := by
  unfold adjustBalance
  split
  · next heq =>
    rw [hacc] at heq
    simp at heq
  · next acc heq =>
    rw [hacc] at heq
    injection heq with heq
    subst heq
    rw [hn, hamt]
    simp only [eq_self_iff_true, if_true]
    rw [jsAdd_cents, toFixed2_cents, parseFloatQ_centsRender, jsLtZero_cents]
    by_cases hk : n + m < 0
    · rw [if_pos (decide_eq_true hk), if_pos hk]
    · rw [if_neg (by simp [hk]), if_neg hk]

theorem adjustBalance_sub_eq (u sid amt d : String) (s : Store) (account : Account)
    (hacc : getAccount sid s = some account) (n m : ℤ)
    (hn : parseFloatQ account.balance = some ((n : ℚ) / 100))
    (hamt : parseFloatQ amt = some ((m : ℚ) / 100)) :
    adjustBalance u sid amt d "subtract" s
      = if n - m < 0 then (s, ApiResult.err 400 "Balance cannot be negative")
        else (createTransaction
                { accountId := account.id, type := "withdrawal", amount := "-" ++ amt,
                  description := d, createdBy := u }
                (updateAccountBalance sid (centsRender (n - m)) s), ApiResult.ok) := by
  unfold adjustBalance
  split
  · next heq =>
    rw [hacc] at heq
    simp at heq
  · next acc heq =>
    rw [hacc] at heq
    injection heq with heq
    subst heq
    rw [hn, hamt]
    simp only [if_neg (by decide : ¬("subtract" : String) = "add")]
    rw [jsSub_cents, toFixed2_cents, parseFloatQ_centsRender, jsLtZero_cents]
    by_cases hk : n - m < 0
    · rw [if_pos (decide_eq_true hk), if_pos hk]
    · rw [if_neg (by simp [hk]), if_neg hk]

/-- Updating one account to a rendered cent balance while appending the matching
transaction preserves well-formedness. -/
theorem update_and_tx_wf (s : Store) (hwf : StoreWF s) (account : Account)
    (hmem : account ∈ s.accounts) (sid : String) (huid : account.userId = sid)
    (n : ℤ) (hn : parseFloatQ account.balance = some ((n : ℚ) / 100))
    (k : ℤ) (t : Transaction) (htid : t.accountId = account.id)
    (hval : amountQ t.amount = ((k - n : ℤ) : ℚ) / 100) :
    StoreWF (createTransaction t (updateAccountBalance sid (centsRender k) s)) := by
  constructor
  · intro a' ha'
    obtain ⟨a, ha, rfl⟩ := List.mem_map.mp ha'
    by_cases hcase : a.userId = sid
    · rw [if_pos hcase]
      exact ⟨k, parseFloatQ_centsRender k⟩
    · rw [if_neg hcase]
      exact hwf.balances a ha
  · show ((s.accounts.map _).map Account.userId).Nodup
    rw [map_map_userId _ (fun a => by by_cases hcase : a.userId = sid <;> simp [hcase])]
    exact hwf.userIds
  · show ((s.accounts.map _).map Account.id).Nodup
    rw [map_map_accountId _ (fun a => by by_cases hcase : a.userId = sid <;> simp [hcase])]
    exact hwf.ids
  · intro a' ha'
    obtain ⟨a, ha, rfl⟩ := List.mem_map.mp ha'
    by_cases hcase : a.userId = sid
    · have haeq : a = account :=
        List.inj_on_of_nodup_map hwf.userIds ha hmem (hcase.trans huid.symm)
      subst haeq
      rw [if_pos hcase]
      show txSum a.id (s.transactions ++ [t]) = amountQ (centsRender k)
      rw [txSum_append, txSum_single, if_pos (htid.trans rfl), hwf.ledger a ha,
        amountQ_of_parse a.balance _ hn, hval, amountQ_centsRender]
      push_cast
      ring
    · rw [if_neg hcase]
      have hne : a ≠ account := fun h => hcase (h ▸ huid)
      have hid : t.accountId ≠ a.id := by
        rw [htid]
        intro hcontra
        exact hne (List.inj_on_of_nodup_map hwf.ids hmem ha hcontra).symm
      show txSum a.id (s.transactions ++ [t]) = amountQ a.balance
      rw [txSum_append, txSum_single, if_neg hid, hwf.ledger a ha, add_zero]

theorem adjustBalance_wf (u sid amt d ty : String) (m : ℤ) (hm : 0 < m)
    (hamt : amt = centsRender m) (hty : ty = "add" ∨ ty = "subtract")
    (s : Store) (hwf : StoreWF s) : StoreWF (adjustBalance u sid amt d ty s).1 := by
  have hparse : parseFloatQ amt = some ((m : ℚ) / 100) := by
    rw [hamt]
    exact parseFloatQ_centsRender m
  cases hacc : getAccount sid s with
  | none =>
    have hres : adjustBalance u sid amt d ty s = (s, .err 404 "Student account not found") := by
      unfold adjustBalance
      rw [hacc]
    rw [hres]
    exact hwf
  | some account =>
    have hmem : account ∈ s.accounts := List.mem_of_find?_eq_some hacc
    have huid : account.userId = sid := by simpa using List.find?_some hacc
    obtain ⟨n, hn⟩ := hwf.balances account hmem
    rcases hty with hty | hty
    · subst hty
      rw [adjustBalance_add_eq u sid amt d s account hacc n m hn hparse]
      by_cases hk : n + m < 0
      · rw [if_pos hk]
        exact hwf
      · rw [if_neg hk]
        refine update_and_tx_wf s hwf account hmem sid huid n hn (n + m) _ rfl ?_
        show amountQ amt = _
        rw [amountQ_of_parse amt _ hparse]
        congr 1
        push_cast
        ring
    · subst hty
      rw [adjustBalance_sub_eq u sid amt d s account hacc n m hn hparse]
      by_cases hk : n - m < 0
      · rw [if_pos hk]
        exact hwf
      · rw [if_neg hk]
        refine update_and_tx_wf s hwf account hmem sid huid n hn (n - m) _ rfl ?_
        show amountQ ("-" ++ amt) = _
        rw [hamt, amountQ_dash_centsRender m (le_of_lt hm)]
        push_cast
        ring

theorem patchWithdrawalRequest_wf (u : String) (rid : Nat) (st : String) (s : Store)
    (hwf : StoreWF s) : StoreWF (patchWithdrawalRequest u rid st s).1 := by
  rw [patchWithdrawalRequest_frame]
  exact ⟨hwf.balances, hwf.userIds, hwf.ids, hwf.ledger⟩

theorem applyOp_wf (op : Op) (hop : OpValid op) (s : Store) (hwf : StoreWF s) :
    StoreWF (applyOp op s) := by
  cases op with
  | paycheck u a =>
    obtain ⟨m, hm, hamt⟩ := hop
    exact distributePaycheck_wf u a m hamt s hwf
  | rent u a =>
    obtain ⟨m, hm, hamt⟩ := hop
    exact collectRent_wf u a m hm hamt s hwf
  | adjust u sid a d ty =>
    obtain ⟨⟨m, hm, hamt⟩, hty⟩ := hop
    exact adjustBalance_wf u sid a d ty m hm hamt hty s hwf
  | patchRequest u rid st => exact patchWithdrawalRequest_wf u rid st s hwf

theorem applyOps_wf (ops : List Op) (s : Store) (hwf : StoreWF s)
    (hops : ∀ op ∈ ops, OpValid op) : StoreWF (applyOps ops s) := by
  induction ops generalizing s with
  | nil => exact hwf
  | cons op ops ih =>
    show StoreWF (applyOps ops (applyOp op s))
    exact ih (applyOp op s) (applyOp_wf op (hops op (by simp)) s hwf)
      (fun o ho => hops o (by simp [ho]))

/-! ## Claim theorems -/

/-- C1: the spec says approving a pending withdrawal request of amount at most
the balance deducts the amount and appends a withdrawal transaction (example:
request "25.00" on balance "25.00" gives balance "0.00"), and that an excessive
request fails with InsufficientBalance.  The code instead marks the request
approved *before* searching `getPendingWithdrawalRequests` for it, so the
deduction branch is unreachable: on the spec's own example the approval
responds with success, the balance stays "25.00" and no transaction is
appended, and no balance re-check ever happens. -/
theorem approval_never_deducts_C1 :
    (patchWithdrawalRequest "teacher1" 1 "approved" demoStore).1.accounts
        = [{ id := 7, userId := "alice", balance := "25.00" }] ∧
    (patchWithdrawalRequest "teacher1" 1 "approved" demoStore).1.transactions
        = demoStore.transactions ∧
    (patchWithdrawalRequest "teacher1" 1 "approved" demoStore).2 = ApiResult.ok := by
  with_unfolding_all decide

/-- C3 counterexample: a second approval attempt on a request that is already
approved (no longer pending) responds with success — there is no
AlreadyResolved failure anywhere in the handler. -/
theorem second_approval_not_rejected_C3 :
    demoStoreApproved.requests.map WithdrawalRequest.status = ["approved"] ∧
    (patchWithdrawalRequest "teacher1" 1 "approved" demoStoreApproved).2 = ApiResult.ok := by
  with_unfolding_all decide

/-- C3 amended: a repeated approval does not fail with AlreadyResolved — the
status update is applied again unconditionally and the handler responds with
success — but no approval attempt (first or repeated) ever deducts the balance
or appends a transaction, so in particular no double-deduction occurs. -/
theorem approval_always_ok_never_deducts_C3 (u : String) (rid : Nat) (s : Store) :
    (patchWithdrawalRequest u rid "approved" s).1.accounts = s.accounts ∧
    (patchWithdrawalRequest u rid "approved" s).1.transactions = s.transactions ∧
    (patchWithdrawalRequest u rid "approved" s).1.requests
      = s.requests.map (fun r =>
          if r.id = rid then { r with status := "approved", reviewedBy := u } else r) ∧
    (patchWithdrawalRequest u rid "approved" s).2 = ApiResult.ok := by
  rw [patchWithdrawalRequest_frame]
  exact ⟨rfl, rfl, rfl, rfl⟩

/-- C2: starting from a well-formed store (ledger reconciled, cent-valued
balances, unique user and account ids), any sequence of validly-formed
mutations — paycheck distributions, rent collections, manual adjustments and
withdrawal-request approvals/denials — leaves every account's transaction
amounts summing to its stored balance. -/
theorem ledger_reconciliation_C2 (ops : List Op) (s : Store)
    (hwf : StoreWF s) (hops : ∀ op ∈ ops, OpValid op) :
    ∀ a ∈ (applyOps ops s).accounts,
      txSum a.id (applyOps ops s).transactions = amountQ a.balance :=
  (applyOps_wf ops s hwf hops).ledger

/-- Witness for C2 on a concrete two-student store and a four-operation
sequence: after paycheck $5.00, rent $2.00, a $1.00 subtraction and a request
approval, the first student's ledger still sums to the stored "32.00". -/
theorem ledger_reconciliation_C2_witness :
    txSum 3 (applyOps demoOps twoStore).transactions
      = amountQ ({ id := 3, userId := "bob", balance := "32.00" } : Account).balance := by
  refine ledger_reconciliation_C2 demoOps twoStore ⟨?_, ?_, ?_, ?_⟩ ?_
    { id := 3, userId := "bob", balance := "32.00" } (by with_unfolding_all decide)
  · intro a ha
    fin_cases ha
    · exact ⟨3000, by with_unfolding_all decide⟩
    · exact ⟨0, by with_unfolding_all decide⟩
  · with_unfolding_all decide
  · with_unfolding_all decide
  · intro a ha
    fin_cases ha <;> with_unfolding_all decide
  · intro op hop
    fin_cases hop
    · exact ⟨500, by decide, rfl⟩
    · exact ⟨200, by decide, rfl⟩
    · exact ⟨⟨100, by decide, rfl⟩, Or.inr rfl⟩
    · trivial

/-- C6: a manual subtract adjustment whose cent amount exceeds the account's
current cent balance is rejected with the handler's insufficient-balance error
("Balance cannot be negative", HTTP 400) and the store — balance and
transactions — is returned unchanged. -/
theorem subtract_insufficient_rejected_C6 (u sid amt d : String) (s : Store)
    (account : Account) (n m : ℤ)
    (hacc : getAccount sid s = some account)
    (hn : parseFloatQ account.balance = some ((n : ℚ) / 100))
    (hamt : amt = centsRender m)
    (hgt : n < m) :
    adjustBalance u sid amt d "subtract" s
      = (s, ApiResult.err 400 "Balance cannot be negative") := by
  have hparse : parseFloatQ amt = some ((m : ℚ) / 100) := by
    rw [hamt]
    exact parseFloatQ_centsRender m
  rw [adjustBalance_sub_eq u sid amt d s account hacc n m hn hparse,
    if_pos (by omega : n - m < 0)]

/-- Witness for C6: the spec's example — balance "100.00", subtract "150.00". -/
theorem subtract_insufficient_rejected_C6_witness :
    adjustBalance "teacher1" "dana" (centsRender 15000) "Fine" "subtract" adjStore
      = (adjStore, ApiResult.err 400 "Balance cannot be negative") :=
  subtract_insufficient_rejected_C6 "teacher1" "dana" (centsRender 15000) "Fine" adjStore
    { id := 9, userId := "dana", balance := "100.00" } 10000 15000
    (by with_unfolding_all decide) (by with_unfolding_all decide) rfl (by decide)

/-- C8: the spec requires every mutating endpoint to reject an unparsable or
non-positive amount before touching the store, but the paycheck handler
validates only that the amount is a string: posting amount "abc" is accepted,
every balance is overwritten with "NaN" and a "paycheck" transaction carrying
the literal string "abc" is appended. -/
theorem paycheck_accepts_unparsable_amount_C8 :
    (distributePaycheck "teacher1" "abc" rentStore).1.accounts
        = [{ id := 3, userId := "bob", balance := "NaN" }] ∧
    (distributePaycheck "teacher1" "abc" rentStore).1.transactions
        = rentStore.transactions
          ++ [{ accountId := 3, type := "paycheck", amount := "abc",
                description := "Weekly Paycheck", createdBy := "teacher1" }] ∧
    (distributePaycheck "teacher1" "abc" rentStore).2 = 1 := by
  with_unfolding_all decide

/-- C10: creating a withdrawal request already fails at creation time with an
"Insufficient balance" error when the requested amount parses to more than the
student's current balance, and the store — in particular the request table —
is returned unchanged. -/
theorem request_creation_insufficient_C10 (userId amount reason : String) (newId : Nat)
    (s : Store) (account : Account) (qa qb : ℚ)
    (hacc : getAccount userId s = some account)
    (hamt : parseFloatQ amount = some qa) (hbal : parseFloatQ account.balance = some qb)
    (hgt : qb < qa) :
    postWithdrawalRequests userId amount reason newId s
      = (s, ApiResult.err 400 "Insufficient balance") := by
  unfold postWithdrawalRequests
  split
  · next heq =>
    rw [hacc] at heq
    simp at heq
  · next acc heq =>
    rw [hacc] at heq
    injection heq with heq
    subst heq
    rw [hamt, hbal]
    rw [if_pos (show jsGt (some qa) (some qb) = true from decide_eq_true hgt)]

/-- Witness for C10: requesting "30.00" against a "25.00" balance. -/
theorem request_creation_insufficient_C10_witness :
    postWithdrawalRequests "alice" "30.00" "toy" 2 demoStore
      = (demoStore, ApiResult.err 400 "Insufficient balance") :=
  request_creation_insufficient_C10 "alice" "30.00" "toy" 2 demoStore
    { id := 7, userId := "alice", balance := "25.00" } 30 25
    (by with_unfolding_all decide) (by with_unfolding_all decide)
    (by with_unfolding_all decide) (by norm_num)

/-- The actual rent deduction, rendered, in cents. -/
theorem rentDeduction_cents (amt : String) (a : Account) (n m : ℤ)
    (hn : parseFloatQ a.balance = some ((n : ℚ) / 100))
    (hamt : parseFloatQ amt = some ((m : ℚ) / 100)) :
    toFixed2 (rentActualDeduction amt a) = centsRender (n - max 0 (n - m)) := by
  unfold rentActualDeduction rentNewBalance
  rw [hn, hamt, jsSub_cents, jsMax0_cents, toFixed2_cents, parseFloatQ_centsRender,
    jsSub_cents, toFixed2_cents]

/-- C5: distributing a paycheck of A cents over the N student accounts adds
exactly A to every account's balance (zero-balance accounts included), appends
exactly one "paycheck" transaction per account carrying the request amount,
and reports N students reached. -/
theorem paycheck_adds_to_every_account_C5 (u amt : String) (p : ℤ) (bal : Account → ℤ)
    (s : Store) (hp : 0 < p) (hamt : amt = centsRender p)
    (hnd : (s.accounts.map Account.userId).Nodup)
    (hbal : ∀ a ∈ s.accounts, parseFloatQ a.balance = some ((bal a : ℚ) / 100)) :
    ((distributePaycheck u amt s).1.accounts.map (fun a => parseFloatQ a.balance)
        = s.accounts.map (fun a => some (((bal a + p : ℤ) : ℚ) / 100))) ∧
    (distributePaycheck u amt s).1.transactions
        = s.transactions ++ s.accounts.map (fun a =>
            { accountId := a.id, type := "paycheck", amount := amt,
              description := "Weekly Paycheck", createdBy := u }) ∧
    (distributePaycheck u amt s).2 = s.accounts.length := by
  have hparse : parseFloatQ amt = some ((p : ℚ) / 100) := by
    rw [hamt]
    exact parseFloatQ_centsRender p
  have hres : (distributePaycheck u amt s).1 = s.accounts.foldl (paycheckStep u amt) s := rfl
  refine ⟨?_, ?_, rfl⟩
  · rw [hres, paycheck_foldl u amt s.accounts s hnd]
    show (s.accounts.map (paycheckUpdate amt s.accounts)).map _ = _
    rw [List.map_map]
    apply List.map_congr_left
    intro a ha
    show parseFloatQ (paycheckUpdate amt s.accounts a).balance = _
    rw [paycheckUpdate_self amt s.accounts hnd a ha (bal a) p (hbal a ha) hparse]
    exact parseFloatQ_centsRender _
  · rw [hres, paycheck_foldl u amt s.accounts s hnd]
    rfl

/-- Witness for C5 on a two-student store (one account at zero). -/
theorem paycheck_adds_to_every_account_C5_witness :
    ((distributePaycheck "teacher1" (centsRender 500) twoStore).1.accounts.map
        (fun a => parseFloatQ a.balance)
      = twoStore.accounts.map (fun a =>
          some ((((if a.userId = "bob" then (3000 : ℤ) else 0) + 500 : ℤ) : ℚ) / 100))) ∧
    (distributePaycheck "teacher1" (centsRender 500) twoStore).1.transactions
      = twoStore.transactions ++ twoStore.accounts.map (fun a =>
          { accountId := a.id, type := "paycheck", amount := centsRender 500,
            description := "Weekly Paycheck", createdBy := "teacher1" }) ∧
    (distributePaycheck "teacher1" (centsRender 500) twoStore).2
      = twoStore.accounts.length :=
  paycheck_adds_to_every_account_C5 "teacher1" (centsRender 500) 500
    (fun a => if a.userId = "bob" then 3000 else 0) twoStore
    (by decide) rfl (by with_unfolding_all decide)
    (by intro a ha; fin_cases ha <;> with_unfolding_all decide)

/-- C4: collecting rent of r cents (r > 0) gives every account the new balance
max(0, old - r) — never negative — and emits, for exactly the accounts whose
old balance was positive, a transaction recording the actually deducted amount
old - new; the reported count is the number of those accounts. -/
theorem rent_clamps_at_zero_C4 (u amt : String) (r : ℤ) (bal : Account → ℤ)
    (s : Store) (hr : 0 < r) (hamt : amt = centsRender r)
    (hnd : (s.accounts.map Account.userId).Nodup)
    (hbal : ∀ a ∈ s.accounts, parseFloatQ a.balance = some ((bal a : ℚ) / 100))
    (hnneg : ∀ a ∈ s.accounts, 0 ≤ bal a) :
    ((collectRent u amt s).1.accounts.map (fun a => parseFloatQ a.balance)
        = s.accounts.map (fun a => some (((max 0 (bal a - r) : ℤ) : ℚ) / 100))) ∧
    (collectRent u amt s).1.transactions
        = s.transactions ++ (s.accounts.filter (fun a => decide (0 < bal a))).map (fun a =>
            { accountId := a.id, type := "rent",
              amount := "-" ++ centsRender (bal a - max 0 (bal a - r)),
              description := "Monthly Rent", createdBy := u }) ∧
    (collectRent u amt s).2 = (s.accounts.filter (fun a => decide (0 < bal a))).length := by
  have hparse : parseFloatQ amt = some ((r : ℚ) / 100) := by
    rw [hamt]
    exact parseFloatQ_centsRender r
  have hres : collectRent u amt s = s.accounts.foldl (rentStep u amt) (s, 0) := rfl
  have hfilter : s.accounts.filter (rentEmits amt)
      = s.accounts.filter (fun a => decide (0 < bal a)) := by
    apply List.filter_congr
    intro a ha
    exact rentEmits_cents amt a (bal a) r (hbal a ha) hparse hr
  refine ⟨?_, ?_, ?_⟩
  · rw [hres, rent_foldl u amt s.accounts s 0 hnd]
    show (s.accounts.map (rentUpdate amt s.accounts)).map _ = _
    rw [List.map_map]
    apply List.map_congr_left
    intro a ha
    show parseFloatQ (rentUpdate amt s.accounts a).balance = _
    rw [rentUpdate_self amt s.accounts hnd a ha (bal a) r (hbal a ha) hparse]
    by_cases h : 0 < bal a
    · rw [if_pos h]
      exact parseFloatQ_centsRender _
    · rw [if_neg h]
      have hz : bal a = 0 := le_antisymm (not_lt.mp h) (hnneg a ha)
      rw [hbal a ha, hz]
      have hmax : max 0 ((0 : ℤ) - r) = 0 := by omega
      rw [hmax]
  · rw [hres, rent_foldl u amt s.accounts s 0 hnd]
    show s.transactions ++ (s.accounts.filter (rentEmits amt)).map (rentTxOf u amt) = _
    rw [hfilter]
    congr 1
    apply List.map_congr_left
    intro a ha
    obtain ⟨hmem, hpos⟩ := List.mem_filter.mp ha
    show rentTxOf u amt a = _
    unfold rentTxOf
    rw [rentDeduction_cents amt a (bal a) r (hbal a hmem) hparse]
  · rw [hres, rent_foldl u amt s.accounts s 0 hnd]
    show 0 + s.accounts.countP (rentEmits amt) = _
    rw [List.countP_eq_length_filter, hfilter, Nat.zero_add]

/-- Witness for C4: the spec's example — balance "30.00", rent "50.00" gives
new balance max(0, 3000 - 5000) cents = "0.00", one transaction of "-30.00",
and one student affected. -/
theorem rent_clamps_at_zero_C4_witness :
    ((collectRent "teacher1" (centsRender 5000) rentStore).1.accounts.map
        (fun a => parseFloatQ a.balance)
      = rentStore.accounts.map (fun _ =>
          some (((max 0 ((3000 : ℤ) - 5000) : ℤ) : ℚ) / 100))) ∧
    (collectRent "teacher1" (centsRender 5000) rentStore).1.transactions
      = rentStore.transactions
        ++ (rentStore.accounts.filter (fun _ => decide ((0 : ℤ) < 3000))).map (fun a =>
            { accountId := a.id, type := "rent",
              amount := "-" ++ centsRender (3000 - max 0 ((3000 : ℤ) - 5000)),
              description := "Monthly Rent", createdBy := "teacher1" }) ∧
    (collectRent "teacher1" (centsRender 5000) rentStore).2
      = (rentStore.accounts.filter (fun _ => decide ((0 : ℤ) < 3000))).length :=
  rent_clamps_at_zero_C4 "teacher1" (centsRender 5000) 5000 (fun _ => 3000) rentStore
    (by decide) rfl (by with_unfolding_all decide)
    (by intro a ha; fin_cases ha; with_unfolding_all decide)
    (by intro a ha; fin_cases ha; decide)

/-- C7: an account whose balance is zero before a rent collection receives no
transaction (every transaction for its account id was already present), is not
counted, and the reported studentsAffected equals the number of accounts whose
balance was strictly positive before the deduction. -/
theorem rent_skips_zero_balance_C7 (u amt : String) (r : ℤ) (bal : Account → ℤ)
    (s : Store) (a : Account) (hr : 0 < r) (hamt : amt = centsRender r)
    (hnd : (s.accounts.map Account.userId).Nodup)
    (hids : (s.accounts.map Account.id).Nodup)
    (hbal : ∀ x ∈ s.accounts, parseFloatQ x.balance = some ((bal x : ℚ) / 100))
    (ha : a ∈ s.accounts) (hzero : bal a = 0) :
    (∀ t ∈ (collectRent u amt s).1.transactions, t.accountId = a.id → t ∈ s.transactions) ∧
    a ∉ s.accounts.filter (fun x => decide (0 < bal x)) ∧
    (collectRent u amt s).2 = (s.accounts.filter (fun x => decide (0 < bal x))).length := by
  have hparse : parseFloatQ amt = some ((r : ℚ) / 100) := by
    rw [hamt]
    exact parseFloatQ_centsRender r
  have hres : collectRent u amt s = s.accounts.foldl (rentStep u amt) (s, 0) := rfl
  have hfilter : s.accounts.filter (rentEmits amt)
      = s.accounts.filter (fun x => decide (0 < bal x)) := by
    apply List.filter_congr
    intro x hx
    exact rentEmits_cents amt x (bal x) r (hbal x hx) hparse hr
  refine ⟨?_, ?_, ?_⟩
  · intro t ht htid
    rw [hres, rent_foldl u amt s.accounts s 0 hnd] at ht
    rcases List.mem_append.mp ht with h | h
    · exact h
    · exfalso
      obtain ⟨x, hx, rfl⟩ := List.mem_map.mp h
      obtain ⟨hxmem, hxemit⟩ := List.mem_filter.mp hx
      have hxid : x.id = a.id := htid
      have hxa : x = a := List.inj_on_of_nodup_map hids hxmem ha hxid
      rw [hxa, rentEmits_cents amt a (bal a) r (hbal a ha) hparse hr, hzero] at hxemit
      simp at hxemit
  · intro hmem
    obtain ⟨_, hpos⟩ := List.mem_filter.mp hmem
    rw [hzero] at hpos
    simp at hpos
  · rw [hres, rent_foldl u amt s.accounts s 0 hnd]
    show 0 + s.accounts.countP (rentEmits amt) = _
    rw [List.countP_eq_length_filter, hfilter, Nat.zero_add]

/-- Witness for C7 on the two-student store: the zero-balance account is not in
the counted set and the reported count is the number of positive accounts. -/
theorem rent_skips_zero_balance_C7_witness :
    (({ id := 4, userId := "carol", balance := "0.00" } : Account)
      ∉ twoStore.accounts.filter
          (fun x => decide (0 < (if x.userId = "bob" then (3000 : ℤ) else 0)))) ∧
    (collectRent "teacher1" (centsRender 200) twoStore).2
      = (twoStore.accounts.filter
          (fun x => decide (0 < (if x.userId = "bob" then (3000 : ℤ) else 0)))).length :=
  (rent_skips_zero_balance_C7 "teacher1" (centsRender 200) 200
    (fun x => if x.userId = "bob" then 3000 else 0) twoStore
    { id := 4, userId := "carol", balance := "0.00" }
    (by decide) rfl (by with_unfolding_all decide) (by with_unfolding_all decide)
    (by intro x hx; fin_cases hx <;> with_unfolding_all decide)
    (by with_unfolding_all decide) (by decide)).2

/-- `toFixed(2)` of a non-`NaN` value is always a rendered cent count. -/
theorem toFixed2_some (z : ℚ) : toFixed2 (some z) = centsRender ⌊z * 100 + 1 / 2⌋ := rfl

theorem string_eq_of_data (a b : String) (h : a.data = b.data) : a = b := by
  cases a
  cases b
  exact congrArg String.mk h

theorem hasTwoFracDigits_dash_centsRender (k : ℤ) :
    hasTwoFracDigits ("-" ++ centsRender k) = true := by
  have hdata : ("-" ++ centsRender k) = ⟨['-'] ++ (centsRender k).data⟩ :=
    string_eq_of_data _ _ (by rw [String.data_append])
  rw [hdata]
  exact hasTwoFracDigits_append_centsRender ['-'] k

/-- C9 counterexample: the paycheck endpoint accepts the valid positive amount
"5" but stores the transaction amount as the string "5" verbatim — not a
decimal string with exactly two fractional digits — even though the new
balance is rendered with `toFixed(2)`. -/
theorem paycheck_tx_amount_not_two_frac_C9 :
    (distributePaycheck "teacher1" "5" rentStore).1.transactions.getLast?
        = some { accountId := 3, type := "paycheck", amount := "5",
                 description := "Weekly Paycheck", createdBy := "teacher1" } ∧
    hasTwoFracDigits "5" = false ∧
    parseFloatQ "5" = some 5 ∧
    (distributePaycheck "teacher1" "5" rentStore).1.accounts
        = [{ id := 3, userId := "bob", balance := "35.00" }] := by
  with_unfolding_all decide

/-- The adjust-balance handler once the account lookup and the two parses have
succeeded, for an arbitrary adjustment type string. -/
theorem adjustBalance_some_eq (u sid amt d ty : String) (s : Store) (account : Account)
    (hacc : getAccount sid s = some account) (b q : ℚ)
    (hb : parseFloatQ account.balance = some b) (hq : parseFloatQ amt = some q) :
    adjustBalance u sid amt d ty s
      = (if jsLtZero (parseFloatQ (if ty = "add" then toFixed2 (some (b + q))
              else toFixed2 (some (b - q)))) = true then
           (s, ApiResult.err 400 "Balance cannot be negative")
         else
           (createTransaction
              { accountId := account.id,
                type := if ty = "add" then "bonus" else "withdrawal",
                amount := if ty = "add" then amt else "-" ++ amt,
                description := d, createdBy := u }
              (updateAccountBalance sid
                (if ty = "add" then toFixed2 (some (b + q)) else toFixed2 (some (b - q))) s),
            ApiResult.ok)) := by
  unfold adjustBalance
  split
  · next heq =>
    rw [hacc] at heq
    simp at heq
  · next acc heq =>
    rw [hacc] at heq
    injection heq with heq
    subst heq
    rw [hb, hq]
    rfl

/-- C9 amended: every balance a mutation writes is a `toFixed(2)` rendering — a
decimal string with exactly two fractional digits denoting an exact whole
number of cents (no drift) — and rent transaction amounts are likewise
`toFixed(2)` renderings of the deduction; but paycheck and manual-adjustment
transaction amounts are stored as the client-supplied amount string verbatim
(negated for subtractions), which has two fractional digits only if the client
sent it in that form. -/
theorem balances_rendered_tx_passthrough_C9 (op : Op) (s : Store)
    (hamt : (parseFloatQ (opAmount op)).isSome = true
            ∨ ∃ u rid st, op = Op.patchRequest u rid st)
    (hbal : ∀ a ∈ s.accounts, (parseFloatQ a.balance).isSome = true)
    (hnd : (s.accounts.map Account.userId).Nodup) :
    (∀ a ∈ (applyOp op s).accounts,
        a ∈ s.accounts
        ∨ ∃ k : ℤ, a.balance = centsRender k
            ∧ hasTwoFracDigits a.balance = true
            ∧ parseFloatQ a.balance = some ((k : ℚ) / 100)) ∧
    (∀ t ∈ (applyOp op s).transactions,
        t ∈ s.transactions
        ∨ t.amount = opAmount op
        ∨ t.amount = "-" ++ opAmount op
        ∨ ∃ k : ℤ, 0 ≤ k ∧ t.amount = "-" ++ centsRender k
            ∧ hasTwoFracDigits t.amount = true) := by
  cases op with
  | paycheck u a =>
    obtain ⟨q, hq⟩ := Option.isSome_iff_exists.mp
      (hamt.resolve_right (by rintro ⟨u', rid', st', h⟩; cases h))
    have hq2 : parseFloatQ a = some q := hq
    have hres : applyOp (Op.paycheck u a) s = s.accounts.foldl (paycheckStep u a) s := rfl
    rw [hres, paycheck_foldl u a s.accounts s hnd]
    constructor
    · intro a' ha'
      obtain ⟨x, hx, rfl⟩ := List.mem_map.mp ha'
      unfold paycheckUpdate
      rcases hfind : s.accounts.find? (fun y => y.userId = x.userId) with _ | y
      · rw [hfind]
        exact Or.inl hx
      · rw [hfind]
        obtain ⟨b, hb⟩ := Option.isSome_iff_exists.mp
          (hbal y (List.mem_of_find?_eq_some hfind))
        right
        refine ⟨⌊(b + q) * 100 + 1 / 2⌋, ?_, ?_, ?_⟩
        · show toFixed2 (jsAdd (parseFloatQ y.balance) (parseFloatQ a)) = _
          rw [hb, hq2]
          rfl
        · show hasTwoFracDigits (toFixed2 (jsAdd (parseFloatQ y.balance) (parseFloatQ a))) = _
          rw [hb, hq2]
          exact hasTwoFracDigits_centsRender _
        · show parseFloatQ (toFixed2 (jsAdd (parseFloatQ y.balance) (parseFloatQ a))) = _
          rw [hb, hq2]
          exact parseFloatQ_centsRender _
    · intro t ht
      rcases List.mem_append.mp ht with h | h
      · exact Or.inl h
      · obtain ⟨x, hx, rfl⟩ := List.mem_map.mp h
        exact Or.inr (Or.inl rfl)
  | rent u a =>
    obtain ⟨q, hq⟩ := Option.isSome_iff_exists.mp
      (hamt.resolve_right (by rintro ⟨u', rid', st', h⟩; cases h))
    have hq2 : parseFloatQ a = some q := hq
    have hres : applyOp (Op.rent u a) s = (s.accounts.foldl (rentStep u a) (s, 0)).1 := rfl
    rw [hres, rent_foldl u a s.accounts s 0 hnd]
    constructor
    · intro a' ha'
      obtain ⟨x, hx, rfl⟩ := List.mem_map.mp ha'
      unfold rentUpdate
      rcases hfind : s.accounts.find?
          (fun y => jsGtZero (parseFloatQ y.balance) && y.userId = x.userId) with _ | y
      · rw [hfind]
        exact Or.inl hx
      · rw [hfind]
        obtain ⟨b, hb⟩ := Option.isSome_iff_exists.mp
          (hbal y (List.mem_of_find?_eq_some hfind))
        right
        refine ⟨⌊max 0 (b - q) * 100 + 1 / 2⌋, ?_, ?_, ?_⟩
        · show rentNewBalance a y = _
          unfold rentNewBalance
          rw [hb, hq2]
          rfl
        · show hasTwoFracDigits (rentNewBalance a y) = _
          unfold rentNewBalance
          rw [hb, hq2]
          exact hasTwoFracDigits_centsRender _
        · show parseFloatQ (rentNewBalance a y) = _
          unfold rentNewBalance
          rw [hb, hq2]
          exact parseFloatQ_centsRender _
    · intro t ht
      rcases List.mem_append.mp ht with h | h
      · exact Or.inl h
      · obtain ⟨x, hx, rfl⟩ := List.mem_map.mp h
        obtain ⟨hxmem, hxemit⟩ := List.mem_filter.mp hx
        have hded : jsGtZero (rentActualDeduction a x) = true := by
          unfold rentEmits at hxemit
          simp only [Bool.and_eq_true] at hxemit
          exact hxemit.2
        rcases hval : rentActualDeduction a x with _ | v
        · rw [hval] at hded
          cases hded
        · have hvpos : 0 < v := by
            rw [hval] at hded
            exact of_decide_eq_true hded
          right
          right
          right
          refine ⟨⌊v * 100 + 1 / 2⌋, ?_, ?_, ?_⟩
          · rw [Int.floor_nonneg]
            positivity
          · show "-" ++ toFixed2 (rentActualDeduction a x) = _
            rw [hval]
            rfl
          · show hasTwoFracDigits ("-" ++ toFixed2 (rentActualDeduction a x)) = _
            rw [hval]
            exact hasTwoFracDigits_dash_centsRender _
  | adjust u sid a d ty =>
    obtain ⟨q, hq⟩ := Option.isSome_iff_exists.mp
      (hamt.resolve_right (by rintro ⟨u', rid', st', h⟩; cases h))
    have hq2 : parseFloatQ a = some q := hq
    have hres : applyOp (Op.adjust u sid a d ty) s = (adjustBalance u sid a d ty s).1 := rfl
    rw [hres]
    cases hacc : getAccount sid s with
    | none =>
      have hnone : adjustBalance u sid a d ty s = (s, .err 404 "Student account not found") := by
        unfold adjustBalance
        rw [hacc]
      rw [hnone]
      exact ⟨fun a' ha' => Or.inl ha', fun t ht => Or.inl ht⟩
    | some account =>
      obtain ⟨b, hb⟩ := Option.isSome_iff_exists.mp
        (hbal account (List.mem_of_find?_eq_some hacc))
      rw [adjustBalance_some_eq u sid a d ty s account hacc b q hb hq2]
      by_cases hty : ty = "add"
      · subst hty
        simp only [eq_self_iff_true, if_true]
        by_cases hcheck : jsLtZero (parseFloatQ (toFixed2 (some (b + q)))) = true
        · rw [if_pos hcheck]
          exact ⟨fun a' ha' => Or.inl ha', fun t ht => Or.inl ht⟩
        · rw [if_neg hcheck]
          constructor
          · intro a' ha'
            obtain ⟨x, hx, rfl⟩ := List.mem_map.mp ha'
            by_cases hcase : x.userId = sid
            · rw [if_pos hcase]
              exact Or.inr ⟨⌊(b + q) * 100 + 1 / 2⌋, rfl,
                hasTwoFracDigits_centsRender _, parseFloatQ_centsRender _⟩
            · rw [if_neg hcase]
              exact Or.inl hx
          · intro t ht
            rcases List.mem_append.mp ht with h | h
            · exact Or.inl h
            · rw [List.mem_singleton] at h
              subst h
              exact Or.inr (Or.inl rfl)
      · simp only [if_neg hty]
        by_cases hcheck : jsLtZero (parseFloatQ (toFixed2 (some (b - q)))) = true
        · rw [if_pos hcheck]
          exact ⟨fun a' ha' => Or.inl ha', fun t ht => Or.inl ht⟩
        · rw [if_neg hcheck]
          constructor
          · intro a' ha'
            obtain ⟨x, hx, rfl⟩ := List.mem_map.mp ha'
            by_cases hcase : x.userId = sid
            · rw [if_pos hcase]
              exact Or.inr ⟨⌊(b - q) * 100 + 1 / 2⌋, rfl,
                hasTwoFracDigits_centsRender _, parseFloatQ_centsRender _⟩
            · rw [if_neg hcase]
              exact Or.inl hx
          · intro t ht
            rcases List.mem_append.mp ht with h | h
            · exact Or.inl h
            · rw [List.mem_singleton] at h
              subst h
              exact Or.inr (Or.inr (Or.inl rfl))
  | patchRequest u rid st =>
    have hres : applyOp (Op.patchRequest u rid st) s
        = (patchWithdrawalRequest u rid st s).1 := rfl
    rw [hres, patchWithdrawalRequest_frame]
    exact ⟨fun a' ha' => Or.inl ha', fun t ht => Or.inl ht⟩

/-- Witness for C9 amended, at the counterexample's own input: the transaction
the paycheck of amount "5" appends satisfies the amended statement (it carries
the client-supplied string verbatim). -/
theorem balances_rendered_tx_passthrough_C9_witness :
    c9Tx ∈ rentStore.transactions
    ∨ c9Tx.amount = opAmount (Op.paycheck "teacher1" "5")
    ∨ c9Tx.amount = "-" ++ opAmount (Op.paycheck "teacher1" "5")
    ∨ ∃ k : ℤ, 0 ≤ k ∧ c9Tx.amount = "-" ++ centsRender k
        ∧ hasTwoFracDigits c9Tx.amount = true := by
  refine (balances_rendered_tx_passthrough_C9 (Op.paycheck "teacher1" "5") rentStore
    (Or.inl (by with_unfolding_all decide)) ?_ (by with_unfolding_all decide)).2
    c9Tx (by with_unfolding_all decide)
  intro a ha
  fin_cases ha
  with_unfolding_all decide

end ClassroomBank
